import Mathlib

/-!  Verification of the Yahoo-news RPA scraper (`src/news_scraper.py`,
`src/main.py`).

Shallow embedding conventions:
- The infinite-scroll page is modelled by a function `source : Nat → List α`
  giving, for each poll index `i`, the list of article elements that
  `get_webelements("css:li.stream-item")` reports after the `i`-th scroll.
- The unbounded `while` loop of `scroll_and_load` is embedded with an explicit
  `fuel` bound; every theorem about a terminating run supplies enough fuel.
- Fallible DOM lookups return `Option` (`none` = the underlying call raises or
  times out); the fatal category check returns `Except String`.
- Python strings are Lean `String`s; `str.lower`/`str.upper` are modelled on
  the ASCII range, `str.count` as the non-overlapping left-to-right scan, and
  `re.sub(r"\W+", "", s)` as removal of all non-word characters.
-/

/- ------------------------------------------------------------------ -/
/- Article loader: `NewsScraper.scroll_and_load`, lines 109-137.       -/
/- ------------------------------------------------------------------ -/

/-- Lines 121-135 of `news_scraper.py`: the scroll/poll loop.  State is the
poll index `i`, the last polled list `articles` and `previous_count`; the
loop runs while fewer than 20 articles are loaded and breaks as soon as a
poll reports the same count as the previous one.  `fuel` bounds the number
of iterations (the Python loop is unbounded). -/
def scrollLoop (source : Nat → List α) : Nat → Nat → List α → Nat → List α
  | 0, _, articles, _ => articles
  | fuel + 1, i, articles, previous_count =>
    if articles.length < 20 then
      let a := source i
      if a.length = previous_count then a
      else scrollLoop source fuel (i + 1) a a.length
    else articles

/-- Lines 109-137: `scroll_and_load` starts from an empty list and count 0
and returns only the first 20 items of whatever the loop ends with. -/
def scroll_and_load (source : Nat → List α) (fuel : Nat) : List α :=
  (scrollLoop source fuel 0 [] 0).take 20

/-- Instrumentation of the very same loop: the number of
`get_webelements` polls (one per scroll) it performs before returning. -/
def scrollPolls (source : Nat → List α) : Nat → Nat → List α → Nat → Nat
  | 0, _, _, _ => 0
  | fuel + 1, i, articles, previous_count =>
    if articles.length < 20 then
      let a := source i
      if a.length = previous_count then 1
      else 1 + scrollPolls source fuel (i + 1) a a.length
    else 0

/-- Once at least 20 articles are held, the loop stops at once. -/
theorem scrollLoop_of_twenty (source : Nat → List α) (fuel i : Nat) (a : List α)
    (p : Nat) (h : 20 ≤ a.length) : scrollLoop source fuel i a p = a := by
  cases fuel with
  | zero => rfl
  | succ f => simp [scrollLoop, Nat.not_lt.mpr h]

/-- Loop characterization, growth case: if from poll `i` on every poll up to
`i + d` stays below 20 and differs from its predecessor, and poll `i + d`
is the first to reach 20, the loop returns exactly that poll's list. -/
theorem scrollLoop_reach (source : Nat → List α) :
    ∀ (d i fuel : Nat) (a : List α), d + 1 ≤ fuel → a.length < 20 →
    (source i).length ≠ a.length →
    (∀ t, t < d → (source (i + t)).length < 20 ∧
      (source (i + t + 1)).length ≠ (source (i + t)).length) →
    20 ≤ (source (i + d)).length →
    scrollLoop source fuel i a a.length = source (i + d) := by
  intro d
  induction d with
  | zero =>
    intro i fuel a hfuel ha hne _ h20
    obtain ⟨f, rfl⟩ : ∃ f, fuel = f + 1 := ⟨fuel - 1, by omega⟩
    rw [scrollLoop]
    simp only [if_pos ha, if_neg hne]
    exact scrollLoop_of_twenty source f (i + 1) (source i) (source i).length
      (by simpa using h20)
  | succ d ih =>
    intro i fuel a hfuel ha hne hstep h20
    obtain ⟨f, rfl⟩ : ∃ f, fuel = f + 1 := ⟨fuel - 1, by omega⟩
    rw [scrollLoop]
    simp only [if_pos ha, if_neg hne]
    have h0 := hstep 0 (Nat.succ_pos d)
    have key := ih (i + 1) f (source i) (by omega) (by simpa using h0.1)
      (by simpa using h0.2)
      (by
        intro t ht
        have := hstep (t + 1) (by omega)
        constructor
        · have e : i + (t + 1) = i + 1 + t := by omega
          rw [e] at this; exact this.1
        · have e : i + (t + 1) + 1 = i + 1 + t + 1 := by omega
          have e2 : i + (t + 1) = i + 1 + t := by omega
          rw [e, e2] at this; exact this.2)
      (by
        have e : i + 1 + d = i + (d + 1) := by omega
        rw [e]; exact h20)
    rw [key]
    congr 1
    omega

/-- Loop characterization, stall case: if every poll through `i + d` stays
below 20, no poll up to `i + d` repeats its predecessor's count, and poll
`i + d + 1` repeats poll `i + d`, the loop breaks there and returns poll
`i + d + 1`. -/
theorem scrollLoop_stall (source : Nat → List α) :
    ∀ (d i fuel : Nat) (a : List α), d + 2 ≤ fuel → a.length < 20 →
    (source i).length ≠ a.length →
    (∀ t, t ≤ d → (source (i + t)).length < 20) →
    (∀ t, t < d → (source (i + t + 1)).length ≠ (source (i + t)).length) →
    (source (i + d + 1)).length = (source (i + d)).length →
    scrollLoop source fuel i a a.length = source (i + d + 1) := by
  intro d
  induction d with
  | zero =>
    intro i fuel a hfuel ha hne hlt _ hstall
    obtain ⟨f, rfl⟩ : ∃ f, fuel = f + 1 := ⟨fuel - 1, by omega⟩
    rw [scrollLoop]
    simp only [if_pos ha, if_neg hne]
    obtain ⟨g, rfl⟩ : ∃ g, f = g + 1 := ⟨f - 1, by omega⟩
    rw [scrollLoop]
    have hi : (source i).length < 20 := by simpa using hlt 0 (Nat.le_refl 0)
    simp only [if_pos hi]
    simp only [show i + 0 + 1 = i + 1 by omega, show i + 0 = i by omega] at hstall
    simp [if_pos hstall]
  | succ d ih =>
    intro i fuel a hfuel ha hne hlt hne2 hstall
    obtain ⟨f, rfl⟩ : ∃ f, fuel = f + 1 := ⟨fuel - 1, by omega⟩
    rw [scrollLoop]
    simp only [if_pos ha, if_neg hne]
    have hi : (source i).length < 20 := by simpa using hlt 0 (by omega)
    have key := ih (i + 1) f (source i) (by omega) hi
      (by simpa using hne2 0 (by omega))
      (by
        intro t ht
        have := hlt (t + 1) (by omega)
        have e : i + (t + 1) = i + 1 + t := by omega
        rw [e] at this; exact this)
      (by
        intro t ht
        have := hne2 (t + 1) (by omega)
        have e : i + (t + 1) + 1 = i + 1 + t + 1 := by omega
        have e2 : i + (t + 1) = i + 1 + t := by omega
        rw [e, e2] at this; exact this)
      (by
        have e : i + 1 + d + 1 = i + (d + 1) + 1 := by omega
        have e2 : i + 1 + d = i + (d + 1) := by omega
        rw [e, e2]; exact hstall)
    rw [key]
    congr 1
    omega

/-- Claim C1 (amended).  (1) The loader always returns at most 20 elements.
(2) If every poll reports strictly more articles than the one before it and
the first poll is non-empty, the loop stops exactly at the first poll `j`
whose count reaches 20 and returns that poll's first 20 elements.
(3) If the first poll is non-empty, no poll through `j` reaches 20 or
repeats its predecessor's count, and poll `j + 1` repeats poll `j`'s count
`k < 20`, the loop stops there and returns exactly those `k` elements.
The original claim omitted the non-empty-first-poll proviso; see the
counterexample below. -/
theorem scroll_and_load_spec {α : Type} :
    (∀ (source : Nat → List α) (fuel : Nat),
      (scroll_and_load source fuel).length ≤ 20) ∧
    (∀ (source : Nat → List α) (fuel j : Nat),
      0 < (source 0).length →
      (∀ i, (source i).length < (source (i + 1)).length) →
      (∀ i, i < j → (source i).length < 20) →
      20 ≤ (source j).length →
      j + 1 ≤ fuel →
      scroll_and_load source fuel = (source j).take 20 ∧
        (scroll_and_load source fuel).length = 20) ∧
    (∀ (source : Nat → List α) (fuel j : Nat),
      0 < (source 0).length →
      (∀ i, i ≤ j → (source i).length < 20) →
      (∀ i, i < j → (source (i + 1)).length ≠ (source i).length) →
      (source (j + 1)).length = (source j).length →
      j + 2 ≤ fuel →
      scroll_and_load source fuel = source (j + 1) ∧
        (scroll_and_load source fuel).length = (source j).length) := by
  refine ⟨?_, ?_, ?_⟩
  · intro source fuel
    simp only [scroll_and_load, List.length_take]
    omega
  · intro source fuel j h0 hg hlt h20 hfuel
    have key := scrollLoop_reach source j 0 fuel [] hfuel (by simp)
      (by simpa using Nat.ne_of_gt h0)
      (by
        intro t ht
        refine ⟨by simpa using hlt t ht, ?_⟩
        simpa using Nat.ne_of_gt (hg t))
      (by simpa using h20)
    simp only [List.length_nil, Nat.zero_add] at key
    constructor
    · simpa [scroll_and_load] using congrArg (List.take 20) key
    · simp only [scroll_and_load, key]
      simp only [List.length_take]
      omega
  · intro source fuel j h0 hlt hne hstall hfuel
    have key := scrollLoop_stall source j 0 fuel [] hfuel (by simp)
      (by simpa using Nat.ne_of_gt h0)
      (by intro t ht; simpa using hlt t ht)
      (by intro t ht; simpa using hne t ht)
      (by simpa using hstall)
    simp only [List.length_nil, Nat.zero_add] at key
    have hlen : (source (j + 1)).length < 20 := by
      rw [hstall]; exact hlt j (Nat.le_refl j)
    constructor
    · rw [scroll_and_load, key]
      exact List.take_of_length_le (by omega)
    · rw [scroll_and_load, key, List.take_of_length_le (by omega), hstall]

/-- Witness for C1: the source whose `i`-th poll reports `i + 1` articles
grows strictly from a non-empty first poll and first reaches 20 at poll 19;
the loader returns those first 20 elements. -/
theorem scroll_and_load_spec_witness :
    scroll_and_load (fun i => List.range (i + 1)) 21 = (List.range 20).take 20 ∧
      (scroll_and_load (fun i => List.range (i + 1)) 21).length = 20 := by
  have h := (scroll_and_load_spec (α := Nat)).2.1 (fun i => List.range (i + 1)) 21 19
    (by simp) (fun i => by simp) (fun i hi => by simpa using by omega)
    (by simp) (by omega)
  exact h

/-- Counterexample to C1 as stated: the source whose `i`-th poll reports
`i` articles has a strictly growing article count on every poll, yet the
loader never reaches 20 elements — its first poll reports 0, which equals
the initial `previous_count = 0`, so the loop breaks at once and returns
the empty list. -/
theorem scroll_and_load_claim_counterexample :
    (∀ i, ((fun j => List.range j) i).length < ((fun j => List.range j) (i + 1)).length) ∧
      scroll_and_load (fun j => List.range j) 25 = [] ∧
      (scroll_and_load (fun j => List.range j) 25).length = 0 := by
  refine ⟨fun i => by simp, ?_, ?_⟩ <;> rfl

/-- Claim C10: with `previous_count` initialized to 0, a source whose very
first poll reports no articles makes the loop exit after that single poll
(the freshly polled count 0 equals the initial 0), returning the empty
list; the instrumented loop confirms exactly one poll happens. -/
theorem scroll_first_poll_empty (source : Nat → List α) (fuel : Nat)
    (h0 : (source 0).length = 0) (hfuel : 1 ≤ fuel) :
    scroll_and_load source fuel = [] ∧ scrollPolls source fuel 0 [] 0 = 1 := by
  obtain ⟨f, rfl⟩ : ∃ f, fuel = f + 1 := ⟨fuel - 1, by omega⟩
  have hnil : source 0 = [] := List.length_eq_zero.mp h0
  constructor
  · rw [scroll_and_load, scrollLoop]
    simp [hnil]
  · rw [scrollPolls]
    simp [hnil]

/-- Witness for C10 at the constantly-empty source. -/
theorem scroll_first_poll_empty_witness :
    scroll_and_load (fun _ => ([] : List Nat)) 5 = [] ∧
      scrollPolls (fun _ => ([] : List Nat)) 5 0 [] 0 = 1 :=
  scroll_first_poll_empty (fun _ => ([] : List Nat)) 5 rfl (by omega)

/- ------------------------------------------------------------------ -/
/- Python string primitives used by the scraper.                       -/
/- ------------------------------------------------------------------ -/

/-- Python `str.lower` on one character (ASCII range, as exercised by the
scraper's inputs). -/
def pyLowerChar (c : Char) : Char :=
  if 65 ≤ c.toNat ∧ c.toNat ≤ 90 then Char.ofNat (c.toNat + 32) else c

/-- Python `str.upper` on one character (ASCII range). -/
def pyUpperChar (c : Char) : Char :=
  if 97 ≤ c.toNat ∧ c.toNat ≤ 122 then Char.ofNat (c.toNat - 32) else c

/-- Python `str.lower`. -/
def pyLower (s : String) : String := String.mk (s.toList.map pyLowerChar)

/-- Python `str.upper`. -/
def pyUpper (s : String) : String := String.mk (s.toList.map pyUpperChar)

/-- Replacement of one character performed by `str.replace(" ", "_")`. -/
def replSpaceChar (c : Char) : Char := if c = ' ' then '_' else c

/-- Python `str.replace(" ", "_")`: the pattern is a single character, so
the call replaces each space. -/
def pyReplaceSpaceUnderscore (s : String) : String :=
  String.mk (s.toList.map replSpaceChar)

/-- Membership in Python's regex class `\w` (ASCII part): letters, digits
and the underscore. -/
def isWordChar (c : Char) : Bool := c.isAlphanum || c = '_'

/-- Python `re.sub(r"\W+", "", s)`: replacing every maximal run of
non-word characters by the empty string removes exactly the non-word
characters. -/
def sanitizeWord (s : String) : String := String.mk (s.toList.filter isWordChar)

/-- The non-overlapping left-to-right scan behind Python `str.count` for a
non-empty pattern `sub`: on a match, skip the whole match; otherwise
advance one character.  `fuel` bounds the recursion; `s.length` is always
enough since every step consumes at least one character. -/
def countScan (sub : List Char) : Nat → List Char → Nat
  | 0, _ => 0
  | _ + 1, [] => 0
  | fuel + 1, c :: rest =>
    if sub.isPrefixOf (c :: rest) then
      1 + countScan sub fuel (List.drop (sub.length - 1) rest)
    else countScan sub fuel rest

/-- Python `str.count`: number of non-overlapping occurrences; for the
empty pattern Python counts one occurrence at every position, `length + 1`
in total. -/
def pyCount (s sub : String) : Nat :=
  if sub = "" then s.toList.length + 1 else countScan sub.toList s.toList.length s.toList

/-- Line 216 of `news_scraper.py`:
`title.lower().count(phrase.lower()) + description.lower().count(phrase.lower())`. -/
def search_phrase_count (search_phrase title description : String) : Nat :=
  pyCount (pyLower title) (pyLower search_phrase) +
    pyCount (pyLower description) (pyLower search_phrase)

/-- The start positions the scan of `countScan` matches at, counted from
`pos`; used only to state what `countScan` counts. -/
def scanPositions (sub : List Char) : Nat → Nat → List Char → List Nat
  | 0, _, _ => []
  | _ + 1, _, [] => []
  | fuel + 1, pos, c :: rest =>
    if sub.isPrefixOf (c :: rest) then
      pos :: scanPositions sub fuel (pos + sub.length) (List.drop (sub.length - 1) rest)
    else scanPositions sub fuel (pos + 1) rest

theorem countScan_eq_scanPositions (sub : List Char) :
    ∀ (fuel pos : Nat) (s : List Char),
      countScan sub fuel s = (scanPositions sub fuel pos s).length := by
  intro fuel
  induction fuel with
  | zero => intro pos s; rfl
  | succ f ih =>
    intro pos s
    cases s with
    | nil => rfl
    | cons c rest =>
      rw [countScan, scanPositions]
      by_cases h : sub.isPrefixOf (c :: rest)
      · simp only [if_pos h, List.length_cons]
        rw [ih (pos + sub.length) (List.drop (sub.length - 1) rest)]
        omega
      · simp only [if_neg h]
        exact ih (pos + 1) rest

theorem scanPositions_mem (sub : List Char) (hsub : sub ≠ []) :
    ∀ (fuel pos : Nat) (s : List Char), ∀ q ∈ scanPositions sub fuel pos s,
      pos ≤ q ∧ sub.isPrefixOf (List.drop (q - pos) s) = true := by
  intro fuel
  induction fuel with
  | zero => intro pos s q hq; simp [scanPositions] at hq
  | succ f ih =>
    intro pos s q hq
    cases s with
    | nil => simp [scanPositions] at hq
    | cons c rest =>
      have hk : 1 ≤ sub.length := by
        cases sub with
        | nil => exact absurd rfl hsub
        | cons x xs => simp
      rw [scanPositions] at hq
      by_cases h : sub.isPrefixOf (c :: rest)
      · simp only [if_pos h] at hq
        rcases List.mem_cons.mp hq with rfl | hq
        · exact ⟨Nat.le_refl q, by simpa using h⟩
        · obtain ⟨hle, hpre⟩ := ih (pos + sub.length) (List.drop (sub.length - 1) rest) q hq
          refine ⟨by omega, ?_⟩
          rw [List.drop_drop] at hpre
          have e : sub.length - 1 + (q - (pos + sub.length)) = q - pos - 1 := by omega
          rw [e] at hpre
          have e2 : q - pos = (q - pos - 1) + 1 := by omega
          rw [e2, List.drop_succ_cons]
          exact hpre
      · simp only [if_neg h] at hq
        obtain ⟨hle, hpre⟩ := ih (pos + 1) rest q hq
        refine ⟨by omega, ?_⟩
        have e2 : q - pos = (q - (pos + 1)) + 1 := by omega
        rw [e2, List.drop_succ_cons]
        exact hpre

theorem scanPositions_chain (sub : List Char) (hsub : sub ≠ []) :
    ∀ (fuel pos : Nat) (s : List Char),
      List.Chain' (fun a b => a + sub.length ≤ b) (scanPositions sub fuel pos s) := by
  intro fuel
  induction fuel with
  | zero => intro pos s; simp [scanPositions]
  | succ f ih =>
    intro pos s
    cases s with
    | nil => simp [scanPositions]
    | cons c rest =>
      rw [scanPositions]
      by_cases h : sub.isPrefixOf (c :: rest)
      · simp only [if_pos h]
        rw [List.chain'_cons']
        refine ⟨?_, ih (pos + sub.length) (List.drop (sub.length - 1) rest)⟩
        intro y hy
        have hmem := List.mem_of_mem_head? hy
        exact (scanPositions_mem sub hsub f (pos + sub.length) _ y hmem).1
      · simp only [if_neg h]
        exact ih (pos + 1) rest

theorem toNat_ofNat_small (n : Nat) (h : n < 55296) : (Char.ofNat n).toNat = n := by
  simp [Char.ofNat, Nat.isValidChar, h, Char.ofNatAux, Char.toNat, UInt32.toNat]

theorem pyUpperChar_of_not_lower (c : Char)
    (h : ¬(97 ≤ c.toNat ∧ c.toNat ≤ 122)) : pyUpperChar c = c := by
  rw [pyUpperChar, if_neg h]

theorem pyUpperChar_toNat_of_lower (c : Char)
    (h : 97 ≤ c.toNat ∧ c.toNat ≤ 122) : (pyUpperChar c).toNat = c.toNat - 32 := by
  rw [pyUpperChar, if_pos h]
  exact toNat_ofNat_small _ (by omega)

theorem pyUpperChar_idem (c : Char) : pyUpperChar (pyUpperChar c) = pyUpperChar c := by
  by_cases h : 97 ≤ c.toNat ∧ c.toNat ≤ 122
  · have ht := pyUpperChar_toNat_of_lower c h
    exact pyUpperChar_of_not_lower _ (by rw [ht]; omega)
  · rw [pyUpperChar_of_not_lower c h, pyUpperChar_of_not_lower c h]

theorem pyLowerChar_pyUpperChar (c : Char) : pyLowerChar (pyUpperChar c) = pyLowerChar c := by
  by_cases h : 97 ≤ c.toNat ∧ c.toNat ≤ 122
  · have ht := pyUpperChar_toNat_of_lower c h
    rw [pyLowerChar, if_pos (by rw [ht]; omega), ht]
    have e : c.toNat - 32 + 32 = c.toNat := by omega
    rw [e, Char.ofNat_toNat, pyLowerChar, if_neg (by omega)]
  · rw [pyUpperChar_of_not_lower c h]

theorem pyLower_pyUpper (s : String) : pyLower (pyUpper s) = pyLower s := by
  apply congrArg String.mk
  show List.map pyLowerChar (List.map pyUpperChar s.toList) = List.map pyLowerChar s.toList
  rw [List.map_map]
  exact List.map_congr_left fun c _ => pyLowerChar_pyUpperChar c

/-- Claim C2.  `search_phrase_count` is the sum of the occurrence counts in
title and description taken independently; it is insensitive to the case of
phrase, title and description; on the spec's example it returns 2; it is a
non-negative integer; and for a non-empty phrase the count over either field
is the size of a set of match positions that are genuine occurrences and are
pairwise non-overlapping (consecutive positions at least a pattern length
apart).  The last conjunct shows the non-overlapping scan on "aa" in "aaaa". -/
theorem search_phrase_count_spec :
    (∀ (p t d : String), search_phrase_count p t d =
      pyCount (pyLower t) (pyLower p) + pyCount (pyLower d) (pyLower p)) ∧
    (∀ (p t d : String), search_phrase_count (pyUpper p) (pyUpper t) (pyUpper d) =
      search_phrase_count p t d) ∧
    search_phrase_count "election" "Breaking Election News" "election results" = 2 ∧
    (∀ (p t d : String), 0 ≤ (search_phrase_count p t d : Int)) ∧
    (∀ (s sub : String), sub ≠ "" →
      ∃ ps : List Nat,
        List.Chain' (fun a b => a + sub.toList.length ≤ b) ps ∧
        (∀ q ∈ ps, sub.toList.isPrefixOf (List.drop q s.toList) = true) ∧
        pyCount s sub = ps.length) ∧
    pyCount "aaaa" "aa" = 2 := by
  refine ⟨fun p t d => rfl, ?_, by decide, fun p t d => Int.ofNat_nonneg _, ?_, by decide⟩
  · intro p t d
    rw [search_phrase_count, search_phrase_count,
      pyLower_pyUpper, pyLower_pyUpper, pyLower_pyUpper]
  · intro s sub hsub
    have hnil : sub.toList ≠ [] := fun hn => hsub (String.ext hn)
    refine ⟨scanPositions sub.toList s.toList.length 0 s.toList, ?_, ?_, ?_⟩
    · exact scanPositions_chain sub.toList hnil s.toList.length 0 s.toList
    · intro q hq
      have := (scanPositions_mem sub.toList hnil s.toList.length 0 s.toList q hq).2
      simpa using this
    · rw [pyCount, if_neg hsub]
      exact countScan_eq_scanPositions sub.toList s.toList.length 0 s.toList

/-- Witness for C2 at the concrete pair "aaaa"/"aa": the scan's match
positions exist, are non-overlapping, and number `pyCount "aaaa" "aa"`. -/
theorem search_phrase_count_spec_witness :
    ∃ ps : List Nat,
      List.Chain' (fun a b => a + "aa".toList.length ≤ b) ps ∧
      (∀ q ∈ ps, "aa".toList.isPrefixOf (List.drop q "aaaa".toList) = true) ∧
      pyCount "aaaa" "aa" = ps.length :=
  search_phrase_count_spec.2.2.2.2.1 "aaaa" "aa" (by decide)

/- ------------------------------------------------------------------ -/
/- Extraction pipeline: NewsScraper state, articles, records.          -/
/- ------------------------------------------------------------------ -/

/-- The per-run scraper state fixed in `__init__` (lines 34-44): the
configuration plus the single session timestamp; `today` models the value
of `time.strftime("%Y-%m-%d")` during extraction. -/
structure ScraperCfg where
  site_url : String
  search_phrase : String
  category : String
  timestamp : String
  today : String
  deriving DecidableEq

/-- One loaded article card, as the extractor's DOM lookups see it.  Each
field is the outcome of the corresponding lookup: `titleText` is the text
of `h3.stream-item-title` (`none` = `find_element` raises), `descText` the
text of the summary paragraph (`none` = the 10-second `WebDriverWait`
times out and raises), `imgSrc` the `src` attribute of the first `img`
(`none` = no such element / no attribute). -/
structure Article where
  titleText : Option String
  descText : Option String
  imgSrc : Option String
  deriving DecidableEq

/-- The dictionary assembled at lines 188-194. -/
structure NewsRecord where
  title : String
  description : String
  date : String
  picture_filename : String
  search_phrase_count : Nat
  deriving DecidableEq

/-- Lines 139-160, `extract_image_url`: the try/except around the `img`
lookup turns a raised exception into `None`, which the `Article` field
already encodes. -/
def extract_image_url (article : Article) : Option String := article.imgSrc

/-- The conditional at line 190:
`description_element.text if description_element else "No description available"`.
When control reaches it the wait has already succeeded, so the element is
always present and the `else` branch is dead. -/
def descrOrDefault : Option String → String
  | some s => s
  | none => "No description available"

/-- The analogous conditional at line 193, whose fallback is `""`. -/
def descrOrEmpty : Option String → String
  | some s => s
  | none => ""

/-- Lines 220-250, `download_image`.  `fetchOk url = false` models
`urllib.request.urlretrieve` (or the file write) raising for that URL; the
`if not image_url` guard covers both `None` and the empty string. -/
def download_image (S : ScraperCfg) (fetchOk : String → Bool)
    (image_url : Option String) (title : String) : String :=
  match image_url with
  | none => "placeholder.png"
  | some url =>
    if url = "" then "placeholder.png"
    else
      let title_sanitized := sanitizeWord (title.take 15)
      let category_token := pyReplaceSpaceUnderscore (pyUpper S.category)
      let image_filename := category_token ++ "_" ++ title_sanitized ++ "_" ++
        S.timestamp ++ ".jpg"
      if fetchOk url then image_filename else "placeholder.png"

/-- Lines 177-196: the body of the extraction loop for one article.
`none` is the `except` branch: the exception raised by a missing title or
a timed-out description wait is caught and the article contributes no
record. -/
def processArticle (S : ScraperCfg) (fetchOk : String → Bool)
    (article : Article) : Option NewsRecord :=
  match article.titleText with
  | none => none
  | some t =>
    match article.descText with
    | none => none
    | some d =>
      let image_url := extract_image_url article
      some
        { title := t
          description := descrOrDefault (some d)
          date := S.today
          picture_filename := download_image S fetchOk image_url t
          search_phrase_count :=
            search_phrase_count S.search_phrase t (descrOrEmpty (some d)) }

/-- Lines 176-199: the `for article in articles` loop with its per-article
`try`/`except`. -/
def extractLoop (S : ScraperCfg) (fetchOk : String → Bool) :
    List Article → List NewsRecord
  | [] => []
  | article :: rest =>
    match processArticle S fetchOk article with
    | some r => r :: extractLoop S fetchOk rest
    | none => extractLoop S fetchOk rest

/-- Lines 162-200, `extract_news_data`: load articles, then run the loop. -/
def extract_news_data (S : ScraperCfg) (fetchOk : String → Bool)
    (source : Nat → List Article) (fuel : Nat) : List NewsRecord :=
  extractLoop S fetchOk (scroll_and_load source fuel)

/-- A single-quote character as a string, used in the xpath locator and in
the `ValueError` message of `filter_news_by_category`. -/
def sglQuote : String := (Char.ofNat 39).toString

/-- Actions `filter_news_by_category` performs on the live browser. -/
inductive BrowserAction where
  | visCheck (locator : String)
  | click (locator : String)
  | waitPresence (selector : String)
  deriving DecidableEq

/-- Lines 82-107, `filter_news_by_category`.  Returns the browser actions
performed plus either success or the raised error.  `spanVisible loc`
models `is_element_visible(loc)`; `h3Appears` models whether the 10-second
post-click wait finds an `h3` before timing out.  The `if self.category:`
guard makes the empty category skip everything. -/
def filter_news_by_category (category : String) (spanVisible : String → Bool)
    (h3Appears : Bool) : List BrowserAction × Except String Unit :=
  if category = "" then ([], Except.ok ())
  else
    let locator := "xpath://span[text()=" ++ sglQuote ++ category ++ sglQuote ++ "]"
    if spanVisible locator then
      if h3Appears then
        ([BrowserAction.visCheck locator, BrowserAction.click locator,
          BrowserAction.waitPresence "h3"], Except.ok ())
      else
        ([BrowserAction.visCheck locator, BrowserAction.click locator,
          BrowserAction.waitPresence "h3"],
         Except.error "TimeoutException: h3 not present after category click")
    else
      ([BrowserAction.visCheck locator],
       Except.error ("Category " ++ sglQuote ++ category ++ sglQuote ++ " not found."))

/-- `main.py` lines 19-30: open the site, filter by category, extract, then
save.  Any error raised by the category filter propagates uncaught; the
records are only produced on the success path. -/
def mainRun (S : ScraperCfg) (spanVisible : String → Bool) (h3Appears : Bool)
    (fetchOk : String → Bool) (source : Nat → List Article) (fuel : Nat) :
    Except String (List NewsRecord) :=
  match (filter_news_by_category S.category spanVisible h3Appears).2 with
  | Except.error e => Except.error e
  | Except.ok _ => Except.ok (extract_news_data S fetchOk source fuel)

/-- `os.path.join` for the relative paths the scraper builds. -/
def pathJoin (a b : String) : String := a ++ "/" ++ b

/-- Lines 58-59, `create_output_directory`: the directory path
`output/<CATEGORY>_<timestamp>` (the f-string recomputes the normalized
category inline). -/
def create_output_directory_path (category ts : String) : String :=
  pathJoin "output" (pyReplaceSpaceUnderscore (pyUpper category) ++ "_" ++ ts)

/-- Lines 262-263, `save_to_excel`: the basename of the spreadsheet file,
again recomputing the normalized category inline. -/
def excel_file_name (category ts : String) : String :=
  pyReplaceSpaceUnderscore (pyUpper category) ++ "_news_data_" ++ ts ++ ".xlsx"

/-- Line 281, `save_scrape_log`: the basename of the text log, with its own
inline copy of the normalization. -/
def scrape_log_name (category ts : String) : String :=
  pyReplaceSpaceUnderscore (pyUpper category) ++ "_scrape_log_" ++ ts ++ ".txt"

/-- The normalization all four call sites share: uppercase, then replace
spaces by underscores. -/
def normalizeCategory (category : String) : String :=
  pyReplaceSpaceUnderscore (pyUpper category)

/- ------------------------------------------------------------------ -/
/- Theorems about the extraction pipeline.                             -/
/- ------------------------------------------------------------------ -/

/-- Skipping lemma for the extraction loop: an article whose processing
raises (is caught to `none`) contributes nothing, and the loop continues
over the remaining articles unchanged. -/
theorem extractLoop_skip (S : ScraperCfg) (fetchOk : String → Bool)
    (pre post : List Article) (a : Article)
    (h : processArticle S fetchOk a = none) :
    extractLoop S fetchOk (pre ++ a :: post) =
      extractLoop S fetchOk pre ++ extractLoop S fetchOk post := by
  induction pre with
  | nil => simp [extractLoop, h]
  | cons b rest ih =>
    simp only [List.cons_append, extractLoop]
    cases hb : processArticle S fetchOk b <;> simp [hb, ih]

/-- Concrete configuration used by the worked examples. -/
def exampleCfg : ScraperCfg :=
  { site_url := "https://news.yahoo.com"
    search_phrase := "test"
    category := "2024 Election"
    timestamp := "20240101000000"
    today := "2024-01-01" }

/-- A fetch oracle under which every download succeeds. -/
def alwaysFetch : String → Bool := fun _ => true

/-- A healthy example article card. -/
def exArticle (n : Nat) : Article :=
  { titleText := some ("Title" ++ toString n)
    descText := some ("Desc" ++ toString n)
    imgSrc := none }

/-- An article card whose title lookup raises. -/
def exArticleNoTitle : Article :=
  { titleText := none, descText := some "Desc3", imgSrc := none }

/-- Five loaded articles of which the third lacks a title element. -/
def exampleArticles : List Article :=
  [exArticle 1, exArticle 2, exArticleNoTitle, exArticle 4, exArticle 5]

/-- Claim C3: extraction is per-article failure tolerant.  Any article
whose processing raises is skipped while the loop continues over the
surrounding articles, and on the spec's 5-article example (article 3 lacks
a title element) `extract_news_data` — fed a source that stalls at those 5
cards — yields exactly 4 records, in original order, skipping article 3. -/
theorem extract_partial_failure :
    (∀ (S : ScraperCfg) (fetchOk : String → Bool) (pre post : List Article)
      (a : Article), processArticle S fetchOk a = none →
      extractLoop S fetchOk (pre ++ a :: post) =
        extractLoop S fetchOk pre ++ extractLoop S fetchOk post) ∧
    extract_news_data exampleCfg alwaysFetch (fun _ => exampleArticles) 3 =
      extractLoop exampleCfg alwaysFetch exampleArticles ∧
    (extractLoop exampleCfg alwaysFetch exampleArticles).length = 4 ∧
    (extractLoop exampleCfg alwaysFetch exampleArticles).map NewsRecord.title =
      ["Title1", "Title2", "Title4", "Title5"] := by
  refine ⟨fun S fetchOk pre post a h => extractLoop_skip S fetchOk pre post a h,
    ?_, ?_, ?_⟩ <;> rfl

/-- Witness for C3: the skipping conjunct applied to the concrete articles
around the title-less card, whose processing concretely yields `none`. -/
theorem extract_partial_failure_witness :
    extractLoop exampleCfg alwaysFetch
        ([exArticle 1, exArticle 2] ++ exArticleNoTitle :: [exArticle 4, exArticle 5]) =
      extractLoop exampleCfg alwaysFetch [exArticle 1, exArticle 2] ++
        extractLoop exampleCfg alwaysFetch [exArticle 4, exArticle 5] :=
  extract_partial_failure.1 exampleCfg alwaysFetch [exArticle 1, exArticle 2]
    [exArticle 4, exArticle 5] exArticleNoTitle rfl

/-- An article card whose description wait times out. -/
def exArticleNoDescr : Article :=
  { titleText := some "Some headline", descText := none, imgSrc := none }

/-- Counterexample to claim C8 as stated: for an article whose description
sub-element is absent, no record with the sentinel description is produced
— the `WebDriverWait` raises, the per-article handler catches it, and the
article is dropped entirely (the line-190 fallback is dead code). -/
theorem descr_fallback_counterexample :
    exArticleNoDescr.descText = none ∧
    processArticle exampleCfg alwaysFetch exArticleNoDescr = none ∧
    extractLoop exampleCfg alwaysFetch [exArticleNoDescr] = [] :=
  ⟨rfl, rfl, rfl⟩

/-- Claim C8 (amended): for every article whose description sub-element is
absent, the description wait raises, the article is skipped by the
per-article handler, and no record — sentinel or otherwise — is produced;
the loop continues over the surrounding articles. -/
theorem descr_missing_skips (S : ScraperCfg) (fetchOk : String → Bool)
    (a : Article) (h : a.descText = none) :
    processArticle S fetchOk a = none ∧
    (∀ pre post, extractLoop S fetchOk (pre ++ a :: post) =
      extractLoop S fetchOk pre ++ extractLoop S fetchOk post) := by
  have hp : processArticle S fetchOk a = none := by
    cases ht : a.titleText <;> simp [processArticle, ht, h]
  exact ⟨hp, fun pre post => extractLoop_skip S fetchOk pre post a hp⟩

/-- Witness for C8 (amended) at a concrete description-less article. -/
theorem descr_missing_skips_witness :
    processArticle exampleCfg alwaysFetch exArticleNoDescr = none ∧
    extractLoop exampleCfg alwaysFetch
        ([exArticle 1] ++ exArticleNoDescr :: [exArticle 4]) =
      extractLoop exampleCfg alwaysFetch [exArticle 1] ++
        extractLoop exampleCfg alwaysFetch [exArticle 4] :=
  ⟨(descr_missing_skips exampleCfg alwaysFetch exArticleNoDescr rfl).1,
   (descr_missing_skips exampleCfg alwaysFetch exArticleNoDescr rfl).2
     [exArticle 1] [exArticle 4]⟩

theorem append_jpg_ne_empty (s : String) : s ++ ".jpg" ≠ "" := by
  intro h
  have hl := congrArg String.length h
  simp [String.length_append] at hl
  exact absurd hl.2 (by decide)

/-- Claim C4: `download_image` is total and always yields a usable,
non-empty filename.  For an absent or empty URL it returns the placeholder
immediately, and the result does not depend on the fetch oracle (no
network attempt); for any URL whose fetch/write raises it catches the
error and returns the placeholder; in every case the result is non-empty. -/
theorem download_image_total :
    (∀ (S : ScraperCfg) (fetchOk : String → Bool) (t : String),
      download_image S fetchOk none t = "placeholder.png") ∧
    (∀ (S : ScraperCfg) (fetchOk : String → Bool) (t : String),
      download_image S fetchOk (some "") t = "placeholder.png") ∧
    (∀ (S : ScraperCfg) (f g : String → Bool) (u : Option String) (t : String),
      u = none ∨ u = some "" → download_image S f u t = download_image S g u t) ∧
    (∀ (S : ScraperCfg) (fetchOk : String → Bool) (url t : String),
      fetchOk url = false →
      download_image S fetchOk (some url) t = "placeholder.png") ∧
    (∀ (S : ScraperCfg) (fetchOk : String → Bool) (u : Option String) (t : String),
      download_image S fetchOk u t ≠ "") := by
  refine ⟨fun S fetchOk t => rfl, fun S fetchOk t => by simp [download_image],
    ?_, ?_, ?_⟩
  · rintro S f g u t (rfl | rfl) <;> simp [download_image]
  · intro S fetchOk url t hf
    by_cases hu : url = "" <;> simp [download_image, hu, hf]
  · intro S fetchOk u t
    cases u with
    | none => simp [download_image]
    | some url =>
      by_cases hu : url = ""
      · simp [download_image, hu]
      · by_cases hf : fetchOk url
        · simp only [download_image, if_neg hu, if_pos hf]
          exact append_jpg_ne_empty _
        · simp [download_image, hu, hf]

/-- Witness for C4: a failing fetch on a concrete URL still returns the
placeholder, and the placeholder path for an absent URL is oracle-free. -/
theorem download_image_total_witness :
    download_image exampleCfg (fun _ => false) (some "http://x/img.jpg") "A Title" =
      "placeholder.png" ∧
    download_image exampleCfg (fun _ => false) none "A Title" =
      download_image exampleCfg alwaysFetch none "A Title" :=
  ⟨download_image_total.2.2.2.1 exampleCfg (fun _ => false) "http://x/img.jpg"
      "A Title" rfl,
   download_image_total.2.2.1 exampleCfg (fun _ => false) alwaysFetch none
      "A Title" (Or.inl rfl)⟩

/-- Claim C5: on the successful-fetch path with a non-empty URL, the
returned filename is `<CATEGORY>_<sanitizedTitlePrefix>_<timestamp>.jpg`:
the category uppercased with spaces replaced by underscores, the first 15
characters of the title with non-word characters removed, and the run
timestamp fixed in the scraper state. -/
theorem download_image_filename_format (S : ScraperCfg) (fetchOk : String → Bool)
    (url title : String) (hu : url ≠ "") (hf : fetchOk url = true) :
    download_image S fetchOk (some url) title =
      pyReplaceSpaceUnderscore (pyUpper S.category) ++ "_" ++
        sanitizeWord (title.take 15) ++ "_" ++ S.timestamp ++ ".jpg" := by
  simp [download_image, hu, hf]

/-- Witness for C5 at a concrete configuration and title: the category
"2024 Election" and title "Breaking: U.S. Election news!" produce
`2024_ELECTION_BreakingUS_20240101000000.jpg`. -/
theorem download_image_filename_format_witness :
    download_image exampleCfg alwaysFetch (some "http://x/img.jpg")
        "Breaking: U.S. Election news!" =
      "2024_ELECTION_BreakingUS_20240101000000.jpg" := by
  have h := download_image_filename_format exampleCfg alwaysFetch
    "http://x/img.jpg" "Breaking: U.S. Election news!" (by decide) rfl
  rw [h]
  decide

theorem replSpaceChar_of_ne (c : Char) (h : c ≠ ' ') : replSpaceChar c = c :=
  if_neg h

/-- One normalized character is a fixed point of a second normalization
pass: upper-casing then space-replacing is idempotent character by
character. -/
theorem normChar_idem (c : Char) :
    replSpaceChar (pyUpperChar (replSpaceChar (pyUpperChar c))) =
      replSpaceChar (pyUpperChar c) := by
  by_cases h : pyUpperChar c = ' '
  · rw [h]
    decide
  · rw [replSpaceChar_of_ne _ h, pyUpperChar_idem, replSpaceChar_of_ne _ h]

theorem normalizeCategory_idem (c : String) :
    normalizeCategory (normalizeCategory c) = normalizeCategory c := by
  apply congrArg String.mk
  show List.map replSpaceChar (List.map pyUpperChar
      (List.map replSpaceChar (List.map pyUpperChar c.toList))) =
    List.map replSpaceChar (List.map pyUpperChar c.toList)
  simp only [List.map_map]
  exact List.map_congr_left fun ch _ => by
    simpa [Function.comp] using normChar_idem ch

/-- Claim C6: category normalization (uppercase, spaces to underscores) is
a function of the category alone (hence deterministic) and idempotent, and
the output directory, the spreadsheet basename and the text-log basename —
each of which recomputes the normalization inline in the source — all
carry the same normalized prefix and the same run timestamp. -/
theorem category_normalization_spec (c ts : String) :
    normalizeCategory (normalizeCategory c) = normalizeCategory c ∧
    create_output_directory_path c ts =
      pathJoin "output" (normalizeCategory c ++ "_" ++ ts) ∧
    excel_file_name c ts = normalizeCategory c ++ "_news_data_" ++ ts ++ ".xlsx" ∧
    scrape_log_name c ts = normalizeCategory c ++ "_scrape_log_" ++ ts ++ ".txt" :=
  ⟨normalizeCategory_idem c, rfl, rfl, rfl⟩

/-- Claim C7: when the category is configured (non-empty) and no span with
its exact text is visible, the whole run fails with the `ValueError`
message naming the category — for every article source and fetch oracle,
so before any extraction can contribute records — and `main` catches
nothing, so the error is the run's result.  The second conjunct exhibits
the category inside the message. -/
theorem category_not_found_fatal (S : ScraperCfg) (spanVisible : String → Bool)
    (h3Appears : Bool) (fetchOk : String → Bool) (source : Nat → List Article)
    (fuel : Nat) (hcat : S.category ≠ "")
    (hvis : spanVisible ("xpath://span[text()=" ++ sglQuote ++ S.category ++
      sglQuote ++ "]") = false) :
    mainRun S spanVisible h3Appears fetchOk source fuel =
      Except.error ("Category " ++ sglQuote ++ S.category ++ sglQuote ++
        " not found.") ∧
    ("Category " ++ sglQuote ++ S.category ++ sglQuote ++ " not found.") =
      ("Category " ++ sglQuote) ++ S.category ++ (sglQuote ++ " not found.") := by
  constructor
  · simp [mainRun, filter_news_by_category, hcat, hvis]
  · rw [String.append_assoc]

/-- Witness for C7: a page with no visible spans at all makes the run with
the example configuration fail with the message naming "2024 Election". -/
theorem category_not_found_fatal_witness :
    mainRun exampleCfg (fun _ => false) true alwaysFetch (fun _ => []) 1 =
      Except.error ("Category " ++ sglQuote ++ "2024 Election" ++ sglQuote ++
        " not found.") ∧
    ("Category " ++ sglQuote ++ "2024 Election" ++ sglQuote ++ " not found.") =
      ("Category " ++ sglQuote) ++ "2024 Election" ++ (sglQuote ++ " not found.") :=
  category_not_found_fatal exampleCfg (fun _ => false) true alwaysFetch
    (fun _ => []) 1 (by decide) rfl

/-- Claim C9: with the empty category string, `filter_news_by_category`
takes the false branch of `if self.category:` immediately — no visibility
lookup, no click, no wait, no error: it succeeds having performed no
browser action, and folding its (empty) action list over any
page-transition function leaves any page unchanged. -/
theorem empty_category_skips_filter (spanVisible : String → Bool)
    (h3Appears : Bool) :
    filter_news_by_category "" spanVisible h3Appears = ([], Except.ok ()) ∧
    (∀ (P : Type) (step : P → BrowserAction → P) (page : P),
      (filter_news_by_category "" spanVisible h3Appears).1.foldl step page =
        page) :=
  ⟨rfl, fun _ _ _ => rfl⟩
